import Mathlib

/-!
Verification development for the gotossr render/cache/pool core.

The Go sources are shallowly embedded:
  * Go maps become association lists (`mapLookup` / `mapInsert` / `mapErase`),
    and `map[string]struct{}` sets become duplicate-free string lists
    (`setInsert` / `setRemove`).
  * `internal/cache` `LocalCache` and its methods keep their Go names.
  * the `internal/jsruntime` `Pool` is modelled with an explicit state record;
    the buffered channel `p.pool` becomes a list bounded by `maxSize`.
  * the render task's data flow (`injectProps`, `doRender`, the join in
    `renderTask.Start`) is modelled as pure functions; channel reads of the
    join step are recorded explicitly so that blocked-sender properties can
    be stated.
-/

/-- Lookup in a Go map modelled as an association list. -/
def mapLookup {α : Type} (k : String) : List (String × α) → Option α
  | [] => none
  | (k2, v) :: rest => if k = k2 then some v else mapLookup k rest

/-- Remove a key from a Go map modelled as an association list. -/
def mapErase {α : Type} (k : String) (m : List (String × α)) : List (String × α) :=
  m.filter (fun p => p.1 ≠ k)

/-- Insert/overwrite a key in a Go map modelled as an association list. -/
def mapInsert {α : Type} (k : String) (v : α) (m : List (String × α)) : List (String × α) :=
  (k, v) :: mapErase k m

/-- Add an element to a Go `map[string]struct{}` set. -/
def setInsert (x : String) (s : List String) : List String :=
  if x ∈ s then s else x :: s

/-- Delete an element from a Go `map[string]struct{}` set. -/
def setRemove (x : String) (s : List String) : List String :=
  s.filter (fun y => y ≠ x)

theorem mapLookup_mapErase {α : Type} (k k2 : String) (m : List (String × α)) :
    mapLookup k (mapErase k2 m) = if k = k2 then none else mapLookup k m := by
  induction m with
  | nil => simp [mapErase, mapLookup]
  | cons p rest ih =>
    obtain ⟨pk, pv⟩ := p
    by_cases h1 : pk = k2
    · subst h1
      by_cases h2 : k = pk <;> simp [mapErase, mapLookup, h2] at ih ⊢ <;> simpa [h2] using ih
    · by_cases h2 : k = pk
      · subst h2
        simp [mapErase, mapLookup, h1]
      · simp [mapErase, mapLookup, h1, h2] at ih ⊢
        exact ih

theorem mapLookup_mapInsert {α : Type} (k k2 : String) (v : α) (m : List (String × α)) :
    mapLookup k (mapInsert k2 v m) = if k = k2 then some v else mapLookup k m := by
  by_cases h : k = k2 <;> simp [mapInsert, mapLookup, h, mapLookup_mapErase]

theorem mem_setInsert (x y : String) (s : List String) :
    y ∈ setInsert x s ↔ y = x ∨ y ∈ s := by
  by_cases h : x ∈ s
  · simp [setInsert, h]
    intro hyx
    subst hyx
    exact h
  · simp [setInsert, h]

theorem mem_setRemove (x y : String) (s : List String) :
    y ∈ setRemove x s ↔ y ∈ s ∧ y ≠ x := by
  simp [setRemove]

theorem setRemove_eq_nil_sub (x y : String) (s : List String)
    (h : setRemove x s = []) (hy : y ∈ s) : y = x := by
  by_contra hne
  have : y ∈ setRemove x s := (mem_setRemove x y s).2 ⟨hy, hne⟩
  rw [h] at this
  exact (List.not_mem_nil y) this

/-- `reactbuilder.BuildResult`: compiled JS, extracted CSS, flattened
dependency list (fields as used by the cache and render task). -/
structure BuildResult where
  JS : String
  CSS : String
  Dependencies : List String
deriving DecidableEq, Repr

instance : Inhabited BuildResult := ⟨⟨"", "", []⟩⟩

/-- `cache.LocalCache`: the in-memory cache.  Each Go map becomes an
association list; `dependencyToParentFiles` is the reverse index
(dependency → set of parent files). -/
structure LocalCache where
  serverBuilds : List (String × BuildResult)
  clientBuilds : List (String × BuildResult)
  routeIDToParentFile : List (String × String)
  parentFileToDependencies : List (String × List String)
  dependencyToParentFiles : List (String × List String)
deriving Repr

/-- `cache.NewLocalCache`: all maps start empty. -/
def NewLocalCache : LocalCache :=
  { serverBuilds := []
    clientBuilds := []
    routeIDToParentFile := []
    parentFileToDependencies := []
    dependencyToParentFiles := [] }

/-- `LocalCache.GetServerBuild`: returns (build, ok, nil error); absent key
yields the zero `BuildResult` with ok = false. -/
def LocalCache.GetServerBuild (cm : LocalCache) (filePath : String) :
    BuildResult × Bool × Option String :=
  match mapLookup filePath cm.serverBuilds with
  | some build => (build, true, none)
  | none => (default, false, none)

/-- `LocalCache.SetServerBuild`: overwrites the entry, never errors. -/
def LocalCache.SetServerBuild (cm : LocalCache) (filePath : String)
    (build : BuildResult) : LocalCache × Option String :=
  ({ cm with serverBuilds := mapInsert filePath build cm.serverBuilds }, none)

/-- `LocalCache.GetClientBuild`. -/
def LocalCache.GetClientBuild (cm : LocalCache) (filePath : String) :
    BuildResult × Bool × Option String :=
  match mapLookup filePath cm.clientBuilds with
  | some build => (build, true, none)
  | none => (default, false, none)

/-- `LocalCache.SetClientBuild`. -/
def LocalCache.SetClientBuild (cm : LocalCache) (filePath : String)
    (build : BuildResult) : LocalCache × Option String :=
  ({ cm with clientBuilds := mapInsert filePath build cm.clientBuilds }, none)

/-- `LocalCache.SetParentFile`: registers routeID → parent file. -/
def LocalCache.SetParentFile (cm : LocalCache) (routeID filePath : String) :
    LocalCache × Option String :=
  ({ cm with routeIDToParentFile := mapInsert routeID filePath cm.routeIDToParentFile }, none)

/-- `LocalCache.GetRouteIDSForParentFile`: all routeIDs whose registered
parent file equals `filePath` (Go iterates the map; order is immaterial,
membership is what the claims state). -/
def LocalCache.GetRouteIDSForParentFile (cm : LocalCache) (filePath : String) :
    List String × Option String :=
  (((cm.routeIDToParentFile.filter (fun p => p.2 = filePath)).map (fun p => p.1)), none)

/-- `LocalCache.GetParentFilesFromDependency`: reverse-index lookup; a
missing key yields the empty list (Go returns nil, nil). -/
def LocalCache.GetParentFilesFromDependency (cm : LocalCache) (dependencyPath : String) :
    List String × Option String :=
  ((mapLookup dependencyPath cm.dependencyToParentFiles).getD [], none)

/-- `LocalCache.GetRouteIDSWithFile`: parents from the reverse index, with
fallback to the path itself when there are none, then the concatenation of
each parent's route IDs. -/
def LocalCache.GetRouteIDSWithFile (cm : LocalCache) (filePath : String) :
    List String × Option String :=
  let reactFilesWithDependency := (cm.GetParentFilesFromDependency filePath).1
  let reactFilesWithDependency :=
    if reactFilesWithDependency = [] then [filePath] else reactFilesWithDependency
  (reactFilesWithDependency.flatMap (fun reactFile => (cm.GetRouteIDSForParentFile reactFile).1), none)

/-- One step of the removal loop in `SetParentFileDependencies`: delete
`filePath` from the reverse entry of `dep`, dropping the entry when the
parent set becomes empty. -/
def removeReverseEntry (rev : List (String × List String)) (dep filePath : String) :
    List (String × List String) :=
  match mapLookup dep rev with
  | none => rev
  | some parents =>
    let parents2 := setRemove filePath parents
    if parents2 = [] then mapErase dep rev else mapInsert dep parents2 rev

/-- One step of the addition loop in `SetParentFileDependencies`: add
`filePath` to the reverse entry of `dep`, creating the entry if absent. -/
def addReverseEntry (rev : List (String × List String)) (dep filePath : String) :
    List (String × List String) :=
  mapInsert dep (setInsert filePath ((mapLookup dep rev).getD [])) rev

/-- `LocalCache.SetParentFileDependencies`: replace the forward edge and
update the reverse index (remove the old deps' reverse entries, add the new
ones). -/
def LocalCache.SetParentFileDependencies (cm : LocalCache) (filePath : String)
    (dependencies : List String) : LocalCache × Option String :=
  let oldDeps := (mapLookup filePath cm.parentFileToDependencies).getD []
  let fwd := mapInsert filePath dependencies cm.parentFileToDependencies
  let rev1 := oldDeps.foldl (fun r dep => removeReverseEntry r dep filePath)
    cm.dependencyToParentFiles
  let rev2 := dependencies.foldl (fun r dep => addReverseEntry r dep filePath) rev1
  ({ cm with parentFileToDependencies := fwd, dependencyToParentFiles := rev2 }, none)

/-- The forward index records `dep` as a dependency of `parent`. -/
def fwdMem (cm : LocalCache) (parent dep : String) : Prop :=
  dep ∈ (mapLookup parent cm.parentFileToDependencies).getD []

/-- The reverse index maps `dep` back to `parent`. -/
def revMem (cm : LocalCache) (dep parent : String) : Prop :=
  parent ∈ (mapLookup dep cm.dependencyToParentFiles).getD []

/-- The reverse index is the exact transpose of the forward index. -/
def transposeOK (cm : LocalCache) : Prop :=
  ∀ dep parent, revMem cm dep parent ↔ fwdMem cm parent dep

instance (cm : LocalCache) (parent dep : String) : Decidable (fwdMem cm parent dep) := by
  unfold fwdMem; infer_instance

instance (cm : LocalCache) (dep parent : String) : Decidable (revMem cm dep parent) := by
  unfold revMem; infer_instance

/-- The parent set stored in a reverse index for a dependency. -/
def revGet (rev : List (String × List String)) (dep : String) : List String :=
  (mapLookup dep rev).getD []


theorem mapLookup_mapInsert_self {α : Type} (k : String) (v : α) (m : List (String × α)) :
    mapLookup k (mapInsert k v m) = some v := by
  simp [mapLookup_mapInsert]

theorem mapLookup_mapInsert_ne {α : Type} {k k2 : String} (h : k ≠ k2) (v : α)
    (m : List (String × α)) : mapLookup k (mapInsert k2 v m) = mapLookup k m := by
  simp [mapLookup_mapInsert, h]

theorem revGet_mapErase_self (k : String) (rev : List (String × List String)) :
    revGet (mapErase k rev) k = [] := by
  simp [revGet, mapLookup_mapErase]

theorem revGet_mapErase_ne {k k2 : String} (h : k ≠ k2) (rev : List (String × List String)) :
    revGet (mapErase k2 rev) k = revGet rev k := by
  simp [revGet, mapLookup_mapErase, h]

theorem revGet_mapInsert_self (k : String) (v : List String)
    (rev : List (String × List String)) : revGet (mapInsert k v rev) k = v := by
  simp [revGet, mapLookup_mapInsert]

theorem revGet_mapInsert_ne {k k2 : String} (h : k ≠ k2) (v : List String)
    (rev : List (String × List String)) : revGet (mapInsert k2 v rev) k = revGet rev k := by
  simp [revGet, mapLookup_mapInsert, h]

theorem removeReverseEntry_of_none {rev : List (String × List String)} {dep : String}
    (fp : String) (h : mapLookup dep rev = none) : removeReverseEntry rev dep fp = rev := by
  simp [removeReverseEntry, h]

theorem removeReverseEntry_of_empty {rev : List (String × List String)} {dep : String}
    {fp : String} {parents : List String} (h : mapLookup dep rev = some parents)
    (he : setRemove fp parents = []) : removeReverseEntry rev dep fp = mapErase dep rev := by
  simp only [removeReverseEntry, h]
  rw [if_pos he]

theorem removeReverseEntry_of_nonempty {rev : List (String × List String)} {dep : String}
    {fp : String} {parents : List String} (h : mapLookup dep rev = some parents)
    (he : ¬ setRemove fp parents = []) :
    removeReverseEntry rev dep fp = mapInsert dep (setRemove fp parents) rev := by
  simp only [removeReverseEntry, h]
  rw [if_neg he]

theorem addReverseEntry_eq (rev : List (String × List String)) (dep fp : String) :
    addReverseEntry rev dep fp = mapInsert dep (setInsert fp (revGet rev dep)) rev := rfl

theorem mem_revGet_removeReverseEntry (rev : List (String × List String))
    (dep fp dep' q : String) :
    q ∈ revGet (removeReverseEntry rev dep fp) dep' ↔
      q ∈ revGet rev dep' ∧ ¬(dep' = dep ∧ q = fp) := by
  by_cases hd : dep' = dep
  · subst hd
    rcases h : mapLookup dep' rev with _ | parents
    · rw [removeReverseEntry_of_none fp h]
      simp [revGet, h]
    · have hrg : revGet rev dep' = parents := by simp [revGet, h]
      by_cases he : setRemove fp parents = []
      · rw [removeReverseEntry_of_empty h he, revGet_mapErase_self, hrg]
        simp only [List.not_mem_nil, false_iff]
        rintro ⟨hq, hn⟩
        exact hn ⟨by trivial, setRemove_eq_nil_sub fp q parents he hq⟩
      · rw [removeReverseEntry_of_nonempty h he, revGet_mapInsert_self, hrg, mem_setRemove]
        constructor
        · rintro ⟨hq, hne⟩
          exact ⟨hq, fun hc => hne hc.2⟩
        · rintro ⟨hq, hne⟩
          exact ⟨hq, fun hc => hne ⟨rfl, hc⟩⟩
  · rcases h : mapLookup dep rev with _ | parents
    · rw [removeReverseEntry_of_none fp h]
      simp [hd]
    · by_cases he : setRemove fp parents = []
      · rw [removeReverseEntry_of_empty h he, revGet_mapErase_ne hd]
        simp [hd]
      · rw [removeReverseEntry_of_nonempty h he, revGet_mapInsert_ne hd]
        simp [hd]

theorem mem_revGet_addReverseEntry (rev : List (String × List String))
    (dep fp dep' q : String) :
    q ∈ revGet (addReverseEntry rev dep fp) dep' ↔
      q ∈ revGet rev dep' ∨ (dep' = dep ∧ q = fp) := by
  by_cases hd : dep' = dep
  · subst hd
    rw [addReverseEntry_eq, revGet_mapInsert_self, mem_setInsert]
    constructor
    · rintro (hq | hq)
      · exact Or.inr ⟨rfl, hq⟩
      · exact Or.inl hq
    · rintro (hq | ⟨_, hq⟩)
      · exact Or.inr hq
      · exact Or.inl hq
  · rw [addReverseEntry_eq, revGet_mapInsert_ne hd]
    simp [hd]

theorem mem_revGet_foldRemove (ds : List String) (rev : List (String × List String))
    (fp dep' q : String) :
    q ∈ revGet (ds.foldl (fun r dep => removeReverseEntry r dep fp) rev) dep' ↔
      q ∈ revGet rev dep' ∧ ¬(dep' ∈ ds ∧ q = fp) := by
  induction ds generalizing rev with
  | nil => simp
  | cons d rest ih =>
    simp only [List.foldl_cons]
    rw [ih, mem_revGet_removeReverseEntry]
    simp only [List.mem_cons]
    tauto

theorem mem_revGet_foldAdd (ds : List String) (rev : List (String × List String))
    (fp dep' q : String) :
    q ∈ revGet (ds.foldl (fun r dep => addReverseEntry r dep fp) rev) dep' ↔
      q ∈ revGet rev dep' ∨ (dep' ∈ ds ∧ q = fp) := by
  induction ds generalizing rev with
  | nil => simp
  | cons d rest ih =>
    simp only [List.foldl_cons]
    rw [ih, mem_revGet_addReverseEntry]
    simp only [List.mem_cons]
    tauto

theorem revMem_SetParentFileDependencies (cm : LocalCache) (fp : String)
    (D : List String) (dep q : String) :
    revMem (cm.SetParentFileDependencies fp D).1 dep q ↔
      (revMem cm dep q ∧
        ¬(dep ∈ (mapLookup fp cm.parentFileToDependencies).getD [] ∧ q = fp)) ∨
      (dep ∈ D ∧ q = fp) := by
  show q ∈ revGet _ dep ↔ _
  rw [LocalCache.SetParentFileDependencies]
  rw [mem_revGet_foldAdd, mem_revGet_foldRemove]
  constructor
  · rintro (⟨hq, hn⟩ | hq)
    · exact Or.inl ⟨hq, fun hc => hn ⟨hc.1, hc.2⟩⟩
    · exact Or.inr ⟨hq.1, hq.2⟩
  · rintro (⟨hq, hn⟩ | hq)
    · exact Or.inl ⟨hq, fun hc => hn ⟨hc.1, hc.2⟩⟩
    · exact Or.inr ⟨hq.1, hq.2⟩

theorem fwdMem_SetParentFileDependencies (cm : LocalCache) (fp : String)
    (D : List String) (p dep : String) :
    fwdMem (cm.SetParentFileDependencies fp D).1 p dep ↔
      (if p = fp then dep ∈ D else fwdMem cm p dep) := by
  by_cases h : p = fp
  · subst h
    rw [if_pos rfl]
    show dep ∈ (mapLookup p (mapInsert p D cm.parentFileToDependencies)).getD [] ↔ _
    rw [mapLookup_mapInsert_self]
    rfl
  · rw [if_neg h]
    show dep ∈ (mapLookup p (mapInsert fp D cm.parentFileToDependencies)).getD [] ↔ _
    rw [mapLookup_mapInsert_ne h]
    rfl

theorem transposeOK_step (cm : LocalCache) (h : transposeOK cm) (fp : String)
    (D : List String) : transposeOK (cm.SetParentFileDependencies fp D).1 := by
  intro dep q
  rw [revMem_SetParentFileDependencies, fwdMem_SetParentFileDependencies]
  by_cases hq : q = fp
  · subst hq
    rw [if_pos rfl]
    have hold : revMem cm dep q ↔ dep ∈ (mapLookup q cm.parentFileToDependencies).getD [] :=
      h dep q
    constructor
    · rintro (⟨hr, hn⟩ | ⟨hd, _⟩)
      · exact absurd ⟨hold.1 hr, rfl⟩ hn
      · exact hd
    · intro hd
      exact Or.inr ⟨hd, rfl⟩
  · rw [if_neg hq]
    constructor
    · rintro (⟨hr, _⟩ | ⟨_, hc⟩)
      · exact (h dep q).1 hr
      · exact absurd hc hq
    · intro hf
      exact Or.inl ⟨(h dep q).2 hf, fun hc => hq hc.2⟩

theorem transposeOK_NewLocalCache : transposeOK NewLocalCache := by
  intro dep parent
  simp [revMem, fwdMem, NewLocalCache, mapLookup]

/-- Outcome of one Redis `GET` as the cache code observes it: missing key
(`redis.Nil`), a stored byte payload, or a connection failure. -/
inductive RedisGetReply where
  | redisNil
  | foundData (data : String)
  | connError (msg : String)
deriving DecidableEq, Repr

/-- Redis key for a server build: `rc.prefix + "server:" + filePath`. -/
def redisServerKey (pfx filePath : String) : String := pfx ++ "server:" ++ filePath

/-- Redis key for a client build: `rc.prefix + "client:" + filePath`. -/
def redisClientKey (pfx filePath : String) : String := pfx ++ "client:" ++ filePath

/-- `RedisCache.GetServerBuild`: `reply` is what `rc.client.Get(ctx, key)`
returned for the server key and `unmarshal` is `json.Unmarshal` into
`BuildResult` (an `Except.error` is a malformed payload).  `redis.Nil` maps
to (zero value, false, nil); a connection error or an unmarshal error is
returned as a non-nil error. -/
def RedisCache.GetServerBuild (reply : RedisGetReply)
    (unmarshal : String → Except String BuildResult) : BuildResult × Bool × Option String :=
  match reply with
  | .redisNil => (default, false, none)
  | .connError msg => (default, false, some msg)
  | .foundData data =>
    match unmarshal data with
    | .error e => (default, false, some e)
    | .ok result => (result, true, none)

/-- `RedisCache.GetClientBuild`: same shape as `GetServerBuild`, on the
client key. -/
def RedisCache.GetClientBuild (reply : RedisGetReply)
    (unmarshal : String → Except String BuildResult) : BuildResult × Bool × Option String :=
  match reply with
  | .redisNil => (default, false, none)
  | .connError msg => (default, false, some msg)
  | .foundData data =>
    match unmarshal data with
    | .error e => (default, false, some e)
    | .ok result => (result, true, none)

/-- A pooled JS runtime handle: `resetCount` counts `Reset` calls and
`destroyed` records `Destroy` (context close / isolate dispose). -/
structure JSRuntime where
  id : Nat
  resetCount : Nat
  destroyed : Bool
deriving DecidableEq, Repr

/-- `JSRuntime.Reset`: discard accumulated context state for reuse. -/
def JSRuntime.Reset (rt : JSRuntime) : JSRuntime := { rt with resetCount := rt.resetCount + 1 }

/-- `JSRuntime.Destroy`: permanently dispose the runtime. -/
def JSRuntime.Destroy (rt : JSRuntime) : JSRuntime := { rt with destroyed := true }

/-- A fresh runtime as `newRuntime()` produces it. -/
def newRuntime (id : Nat) : JSRuntime := { id := id, resetCount := 0, destroyed := false }

/-- `jsruntime.Pool`: `pool` is the buffered channel's queued contents
(front = next receive) bounded by `maxSize`; `created` and `allRuntimes`
track every runtime ever created; `closed` is set by `Close`. -/
structure Pool where
  pool : List JSRuntime
  maxSize : Nat
  created : Nat
  closed : Bool
  allRuntimes : List Nat
  nextId : Nat
deriving Repr

/-- `Pool.createRuntime`: bump `created`, make a runtime, track it. -/
def Pool.createRuntime (p : Pool) : JSRuntime × Pool :=
  let rt := newRuntime p.nextId
  (rt, { p with
    created := p.created + 1
    allRuntimes := p.allRuntimes ++ [rt.id]
    nextId := p.nextId + 1 })

/-- `Pool.Get`: nonblocking receive from the pool channel; when the channel
is empty, create a new runtime on the spot. -/
def Pool.Get (p : Pool) : JSRuntime × Pool :=
  match p.pool with
  | rt :: rest => (rt, { p with pool := rest })
  | [] => p.createRuntime

/-- `Pool.Put`: if the pool is closed, destroy without resetting; otherwise
reset, then nonblocking send into the channel, destroying the runtime when
the channel is full.  Returns the new pool and the runtime's final state. -/
def Pool.Put (p : Pool) (rt : JSRuntime) : Pool × JSRuntime :=
  if p.closed then (p, rt.Destroy)
  else
    let rt2 := rt.Reset
    if p.pool.length < p.maxSize then ({ p with pool := p.pool ++ [rt2] }, rt2)
    else (p, rt2.Destroy)

/-- Acquire/release events on the pool, for stating pairing properties. -/
inductive PoolEvent where
  | getEv (id : Nat)
  | putEv (id : Nat)
deriving DecidableEq, Repr

/-- `Pool.Execute`: `rt := p.Get(); defer p.Put(rt); return rt.Execute(code)`.
`run` is the runtime's `Execute` (result text, error); the deferred `Put`
runs whatever `run` returns.  The trace records the `Get`/`Put` calls made,
in order, with the id of the runtime they handled. -/
def Pool.Execute (p : Pool) (run : JSRuntime → String × Option String) :
    (String × Option String) × Pool × List PoolEvent :=
  let (rt, p1) := p.Get
  let r := run rt
  let (p2, _) := p1.Put rt
  (r, p2, [PoolEvent.getEv rt.id, PoolEvent.putEv rt.id])

/-- Iterated `Pool.Get`: `n` acquisitions in sequence, no releases. -/
def Pool.getN : Pool → Nat → List JSRuntime × Pool
  | p, 0 => ([], p)
  | p, n + 1 =>
    let (rt, p1) := p.Get
    let (rts, p2) := p1.getN n
    (rt :: rts, p2)

/-- `injectProps`: `fmt.Sprintf("var props = %s; %s", props, compiledJS)` —
prefix a single payload-assignment statement to the compiled code. -/
def injectProps (compiledJS props : String) : String :=
  "var props = " ++ props ++ "; " ++ compiledJS

/-- The server branch of `renderTask.doRender` on its success path: cache
lookup, build on miss (`freshBuild` stands for the Bundler's output for
this file — a function of the file alone, not of the payload), cache
write-back, then props injection.  Returns the JS handed to the runtime
pool together with the updated cache. -/
def doRenderServerJS (cm : LocalCache) (filePath props : String)
    (freshBuild : BuildResult) : String × LocalCache :=
  let r := cm.GetServerBuild filePath
  if r.2.1 then (injectProps r.1.JS props, cm)
  else
    let cm2 := (cm.SetServerBuild filePath freshBuild).1
    (injectProps freshBuild.JS props, cm2)

/-- The client branch of `renderTask.doRender` on its success path,
including the SPA short-circuit: with a cached SPA bundle the branch
returns that bundle unmodified; otherwise cache lookup, build on miss,
cache write-back, props injection. -/
def doRenderClientJS (cachedClientSPAJS : String) (cm : LocalCache)
    (filePath props : String) (freshBuild : BuildResult) : String × LocalCache :=
  if cachedClientSPAJS ≠ "" then (cachedClientSPAJS, cm)
  else
    let r := cm.GetClientBuild filePath
    if r.2.1 then (injectProps r.1.JS props, cm)
    else
      let cm2 := (cm.SetClientBuild filePath freshBuild).1
      (injectProps freshBuild.JS props, cm2)

/-- `serverRenderResult` as delivered on the server handoff channel. -/
structure serverRenderResult where
  html : String
  css : String
  err : Option String
deriving DecidableEq, Repr

/-- `clientRenderResult` as delivered on the client handoff channel. -/
structure clientRenderResult where
  js : String
  dependencies : List String
  err : Option String
deriving DecidableEq, Repr

/-- Capacity of `rt.serverRenderResult`: `make(chan serverRenderResult)`
is unbuffered. -/
def serverChanCapacity : Nat := 0

/-- Capacity of `rt.clientRenderResult`: `make(chan clientRenderResult)`
is unbuffered. -/
def clientChanCapacity : Nat := 0

/-- Outcome of the join step of `renderTask.Start`: the returned value and
which handoff channels the orchestrating task received from. -/
structure JoinOutcome where
  result : Except String (String × String × String)
  serverChanRead : Bool
  clientChanRead : Bool
deriving Repr

/-- The join step of `renderTask.Start`: receive the server result; on a
server error return immediately (the client channel is never received
from); otherwise receive the client result; on a client error return that
error; otherwise return (html, css, js). -/
def startJoin (sr : serverRenderResult) (cr : clientRenderResult) : JoinOutcome :=
  match sr.err with
  | some e => { result := .error e, serverChanRead := true, clientChanRead := false }
  | none =>
    match cr.err with
    | some e => { result := .error e, serverChanRead := true, clientChanRead := true }
    | none =>
      { result := .ok (sr.html, sr.css, cr.js), serverChanRead := true, clientChanRead := true }

/-- A branch goroutine's send on its handoff channel blocks forever exactly
when the channel is unbuffered and the orchestrator never receives from it. -/
def senderBlocksForever (chanRead : Bool) (capacity : Nat) : Prop :=
  chanRead = false ∧ capacity = 0

/-- `propsToString`: marshal the props (`json.Marshal`, abstracted as
`marshal`), or return "null" with nil error when no props were passed. -/
def propsToString {α : Type} (props : Option α)
    (marshal : α → String × Option String) : String × Option String :=
  match props with
  | some v => marshal v
  | none => ("null", none)

/-- The props-handling step of `Engine.RenderRoute`: a marshalling error
renders an error page, otherwise the render proceeds with the serialized
payload string. -/
def renderRouteProps {α : Type} (props : Option α)
    (marshal : α → String × Option String) : Except String String :=
  let r := propsToString props marshal
  match r.2 with
  | some e => Except.error e
  | none => Except.ok r.1

/-- Build kinds: "server" (executed) vs "client" (shipped for hydration). -/
inductive BuildKind where
  | server
  | client
deriving DecidableEq, Repr

/-- Kind-dispatching setter: `SetServerBuild` / `SetClientBuild`. -/
def setBuild : BuildKind → LocalCache → String → BuildResult → LocalCache × Option String
  | .server => LocalCache.SetServerBuild
  | .client => LocalCache.SetClientBuild

/-- Kind-dispatching getter: `GetServerBuild` / `GetClientBuild`. -/
def getBuild : BuildKind → LocalCache → String → BuildResult × Bool × Option String
  | .server => LocalCache.GetServerBuild
  | .client => LocalCache.GetClientBuild

/-- The parent-file list `GetRouteIDSWithFile` iterates over: the
reverse-dependency lookup, or the file itself when that lookup is empty. -/
def parentFilesOrSelf (cm : LocalCache) (filePath : String) : List String :=
  let parents := (cm.GetParentFilesFromDependency filePath).1
  if parents = [] then [filePath] else parents

theorem GetRouteIDSWithFile_eq (cm : LocalCache) (filePath : String) :
    (cm.GetRouteIDSWithFile filePath).1 =
      (parentFilesOrSelf cm filePath).flatMap
        (fun reactFile => (cm.GetRouteIDSForParentFile reactFile).1) := rfl

theorem mem_GetRouteIDSForParentFile (cm : LocalCache) (f r : String) :
    r ∈ (cm.GetRouteIDSForParentFile f).1 ↔ (r, f) ∈ cm.routeIDToParentFile := by
  simp only [LocalCache.GetRouteIDSForParentFile, List.mem_map, List.mem_filter]
  constructor
  · rintro ⟨⟨a, b⟩, ⟨hm, hb⟩, ha⟩
    simp only at hb ha
    have hb2 : b = f := of_decide_eq_true hb
    subst ha
    subst hb2
    exact hm
  · intro h
    exact ⟨(r, f), ⟨h, by simp⟩, rfl⟩

theorem transposeOK_foldl (calls : List (String × List String)) (cm : LocalCache)
    (h : transposeOK cm) :
    transposeOK (calls.foldl (fun c call => (c.SetParentFileDependencies call.1 call.2).1) cm) := by
  induction calls generalizing cm with
  | nil => exact h
  | cons call rest ih =>
    exact ih _ (transposeOK_step cm h call.1 call.2)

theorem injectProps_props_inj (compiledJS : String) {p1 p2 : String}
    (h : injectProps compiledJS p1 = injectProps compiledJS p2) : p1 = p2 := by
  have hd := congrArg String.data h
  simp only [injectProps, String.data_append, List.append_assoc] at hd
  have h1 := List.append_cancel_left hd
  have h2 := List.append_cancel_right h1
  exact String.ext h2

/-- C1: the claim fails on the code.  In `renderTask.Start` both handoff
channels are created unbuffered, and on a server-branch error the join
returns early without ever receiving from the client channel, so a client
branch that completes after the early return blocks forever on its send.
Evaluated here at a concrete failing input (server errs, client succeeds):
the client channel is never read, its capacity is 0, and the disjunction
the claim asserts (both channels read, or both capacities 1) is false. -/
theorem startJoin_client_sender_blocks :
    senderBlocksForever
      (startJoin ⟨"", "", some "server build failed"⟩ ⟨"bundle.js", [], none⟩).clientChanRead
      clientChanCapacity ∧
    ¬(((startJoin ⟨"", "", some "server build failed"⟩
          ⟨"bundle.js", [], none⟩).serverChanRead = true ∧
       (startJoin ⟨"", "", some "server build failed"⟩
          ⟨"bundle.js", [], none⟩).clientChanRead = true) ∨
      (serverChanCapacity = 1 ∧ clientChanCapacity = 1)) := by
  refine ⟨⟨rfl, rfl⟩, ?_⟩
  rintro (⟨_, hc⟩ | ⟨hs, _⟩)
  · exact absurd hc (by decide)
  · exact absurd hs (by decide)

/-- C3: the cached artifact is payload-free.  For either branch, the JS
that is executed (server) or returned (client, non-SPA mode) is exactly the
cached artifact's code prefixed by `var props = <payload>; `; two
sequential renders of the same route with different payloads read the
identical cached artifact and their outputs differ only in the injected
payload (distinct payloads give distinct outputs). -/
theorem doRender_cached_artifact_payload_free :
    ∀ (cm : LocalCache) (filePath p1 p2 : String) (freshBuild : BuildResult),
      (∃ a : BuildResult,
        (doRenderServerJS cm filePath p1 freshBuild).2.GetServerBuild filePath =
          (a, true, none) ∧
        (doRenderServerJS (doRenderServerJS cm filePath p1 freshBuild).2
            filePath p2 freshBuild).2 =
          (doRenderServerJS cm filePath p1 freshBuild).2 ∧
        (doRenderServerJS cm filePath p1 freshBuild).1 = injectProps a.JS p1 ∧
        (doRenderServerJS (doRenderServerJS cm filePath p1 freshBuild).2
            filePath p2 freshBuild).1 = injectProps a.JS p2 ∧
        (p1 ≠ p2 →
          (doRenderServerJS cm filePath p1 freshBuild).1 ≠
            (doRenderServerJS (doRenderServerJS cm filePath p1 freshBuild).2
              filePath p2 freshBuild).1)) ∧
      (∃ a : BuildResult,
        (doRenderClientJS "" cm filePath p1 freshBuild).2.GetClientBuild filePath =
          (a, true, none) ∧
        (doRenderClientJS "" (doRenderClientJS "" cm filePath p1 freshBuild).2
            filePath p2 freshBuild).2 =
          (doRenderClientJS "" cm filePath p1 freshBuild).2 ∧
        (doRenderClientJS "" cm filePath p1 freshBuild).1 = injectProps a.JS p1 ∧
        (doRenderClientJS "" (doRenderClientJS "" cm filePath p1 freshBuild).2
            filePath p2 freshBuild).1 = injectProps a.JS p2) := by
  intro cm filePath p1 p2 freshBuild
  constructor
  · rcases h : mapLookup filePath cm.serverBuilds with _ | b
    · have hmiss : (cm.GetServerBuild filePath).2.1 = false := by
        simp [LocalCache.GetServerBuild, h]
      have hhit2 : ((cm.SetServerBuild filePath freshBuild).1.GetServerBuild filePath) =
          (freshBuild, true, none) := by
        simp [LocalCache.GetServerBuild, LocalCache.SetServerBuild, mapLookup_mapInsert_self]
      refine ⟨freshBuild, ?_, ?_, ?_, ?_, ?_⟩
      · simp [doRenderServerJS, hmiss, hhit2]
      · simp [doRenderServerJS, hmiss, hhit2]
      · simp [doRenderServerJS, hmiss]
      · simp [doRenderServerJS, hmiss, hhit2]
      · intro hne heq
        simp [doRenderServerJS, hmiss, hhit2] at heq
        exact hne (injectProps_props_inj freshBuild.JS heq)
    · have hhit : (cm.GetServerBuild filePath) = (b, true, none) := by
        simp [LocalCache.GetServerBuild, h]
      refine ⟨b, ?_, ?_, ?_, ?_, ?_⟩
      · simp [doRenderServerJS, hhit]
      · simp [doRenderServerJS, hhit]
      · simp [doRenderServerJS, hhit]
      · simp [doRenderServerJS, hhit]
      · intro hne heq
        simp [doRenderServerJS, hhit] at heq
        exact hne (injectProps_props_inj b.JS heq)
  · rcases h : mapLookup filePath cm.clientBuilds with _ | b
    · have hmiss : (cm.GetClientBuild filePath).2.1 = false := by
        simp [LocalCache.GetClientBuild, h]
      have hhit2 : ((cm.SetClientBuild filePath freshBuild).1.GetClientBuild filePath) =
          (freshBuild, true, none) := by
        simp [LocalCache.GetClientBuild, LocalCache.SetClientBuild, mapLookup_mapInsert_self]
      refine ⟨freshBuild, ?_, ?_, ?_, ?_⟩
      · simp [doRenderClientJS, hmiss, hhit2]
      · simp [doRenderClientJS, hmiss, hhit2]
      · simp [doRenderClientJS, hmiss]
      · simp [doRenderClientJS, hmiss, hhit2]
    · have hhit : (cm.GetClientBuild filePath) = (b, true, none) := by
        simp [LocalCache.GetClientBuild, h]
      refine ⟨b, ?_, ?_, ?_, ?_⟩
      · simp [doRenderClientJS, hhit]
      · simp [doRenderClientJS, hhit]
      · simp [doRenderClientJS, hhit]
      · simp [doRenderClientJS, hhit]

/-- C4: for either build kind, `setBuild` then `getBuild` on the same
(kind, path) returns exactly the stored artifact with found = true and a
nil error. -/
theorem setBuild_getBuild_roundtrip :
    ∀ (kind : BuildKind) (cm : LocalCache) (filePath : String) (build : BuildResult),
      getBuild kind (setBuild kind cm filePath build).1 filePath = (build, true, none) := by
  intro kind cm filePath build
  cases kind <;>
    simp [getBuild, setBuild, LocalCache.GetServerBuild, LocalCache.SetServerBuild,
      LocalCache.GetClientBuild, LocalCache.SetClientBuild, mapLookup_mapInsert_self]

/-- C5: `Pool.Put` semantics.  If the pool is closed the runtime is
destroyed unconditionally without being reset; otherwise it is reset and
appended to the idle queue when the queue has spare capacity, and reset
then destroyed when the queue is full. -/
theorem Pool_Put_spec :
    ∀ (p : Pool) (rt : JSRuntime),
      (p.closed = true →
        p.Put rt = (p, rt.Destroy) ∧
        (p.Put rt).2.resetCount = rt.resetCount ∧
        (p.Put rt).2.destroyed = true) ∧
      (p.closed = false → p.pool.length < p.maxSize →
        p.Put rt = ({ p with pool := p.pool ++ [rt.Reset] }, rt.Reset) ∧
        (p.Put rt).2.destroyed = rt.destroyed ∧
        (p.Put rt).2.resetCount = rt.resetCount + 1) ∧
      (p.closed = false → ¬ p.pool.length < p.maxSize →
        p.Put rt = (p, rt.Reset.Destroy) ∧
        (p.Put rt).2.destroyed = true ∧
        (p.Put rt).2.resetCount = rt.resetCount + 1) := by
  intro p rt
  refine ⟨?_, ?_, ?_⟩
  · intro hc
    simp [Pool.Put, hc, JSRuntime.Destroy]
  · intro hc hlen
    simp [Pool.Put, hc, hlen, JSRuntime.Reset]
  · intro hc hlen
    simp [Pool.Put, hc, hlen, JSRuntime.Reset, JSRuntime.Destroy]

/-- Witness for C5 at concrete inputs: a closed pool destroys without
resetting; an open pool with room queues the reset runtime; an open full
pool resets then destroys. -/
theorem Pool_Put_spec_witness :
    (Pool.Put ⟨[], 2, 0, true, [], 0⟩ (newRuntime 5) =
      (⟨[], 2, 0, true, [], 0⟩, (newRuntime 5).Destroy)) ∧
    (Pool.Put ⟨[], 2, 0, false, [], 0⟩ (newRuntime 5) =
      (⟨[(newRuntime 5).Reset], 2, 0, false, [], 0⟩, (newRuntime 5).Reset)) ∧
    (Pool.Put ⟨[newRuntime 1, newRuntime 2], 2, 2, false, [1, 2], 3⟩ (newRuntime 5) =
      (⟨[newRuntime 1, newRuntime 2], 2, 2, false, [1, 2], 3⟩,
        (newRuntime 5).Reset.Destroy)) := by
  refine ⟨?_, ?_, ?_⟩
  · exact ((Pool_Put_spec ⟨[], 2, 0, true, [], 0⟩ (newRuntime 5)).1 rfl).1
  · exact ((Pool_Put_spec ⟨[], 2, 0, false, [], 0⟩ (newRuntime 5)).2.1 rfl (by decide)).1
  · exact ((Pool_Put_spec ⟨[newRuntime 1, newRuntime 2], 2, 2, false, [1, 2], 3⟩
      (newRuntime 5)).2.2 rfl (by decide)).1

/-- C6: `Pool.Execute` is the composition acquire → run → release: for every
pool state and every `run` (including ones returning an error), it performs
exactly one `Get` and exactly one `Put`, both on the same runtime, the
result is `run` applied to the acquired runtime, and the final pool is the
one produced by releasing that same runtime. -/
theorem Pool_Execute_one_get_one_put :
    ∀ (p : Pool) (run : JSRuntime → String × Option String),
      (p.Execute run).1 = run (p.Get).1 ∧
      (p.Execute run).2.1 = ((p.Get).2.Put (p.Get).1).1 ∧
      (p.Execute run).2.2 = [PoolEvent.getEv (p.Get).1.id, PoolEvent.putEv (p.Get).1.id] ∧
      ((p.Execute run).2.2.filter (fun e => match e with
        | .getEv _ => true | .putEv _ => false)).length = 1 ∧
      ((p.Execute run).2.2.filter (fun e => match e with
        | .getEv _ => false | .putEv _ => true)).length = 1 := by
  intro p run
  refine ⟨rfl, rfl, rfl, ?_, ?_⟩ <;> simp [Pool.Execute, List.filter]

/-- C7: `Pool.Get` never blocks and never refuses: with a queued idle
runtime it returns it; with an empty queue it creates a fresh runtime on
the spot (bumping `created`); and any number of successive acquisitions
yield that many runtimes, regardless of `maxSize`. -/
theorem Pool_Get_elastic :
    (∀ (p : Pool) (rt : JSRuntime) (rest : List JSRuntime), p.pool = rt :: rest →
        p.Get = (rt, { p with pool := rest })) ∧
    (∀ p : Pool, p.pool = [] →
        (p.Get).1 = newRuntime p.nextId ∧ (p.Get).2.created = p.created + 1) ∧
    (∀ (p : Pool) (n : Nat), (p.getN n).1.length = n) := by
  refine ⟨?_, ?_, ?_⟩
  · intro p rt rest h
    simp [Pool.Get, h]
  · intro p h
    simp [Pool.Get, h, Pool.createRuntime]
  · intro p n
    induction n generalizing p with
    | zero => rfl
    | succ m ih =>
      simp only [Pool.getN]
      simp [ih]

/-- Witness for C7 at concrete inputs: a pool with one queued runtime hands
it out; 3 successive acquisitions on an empty pool of configured size 1 all
succeed. -/
theorem Pool_Get_elastic_witness :
    (Pool.Get ⟨[newRuntime 0], 1, 1, false, [0], 1⟩ =
      (newRuntime 0, ⟨[], 1, 1, false, [0], 1⟩)) ∧
    ((Pool.getN ⟨[], 1, 0, false, [], 0⟩ 3).1.length = 3) := by
  refine ⟨?_, ?_⟩
  · exact Pool_Get_elastic.1 ⟨[newRuntime 0], 1, 1, false, [0], 1⟩ (newRuntime 0) [] rfl
  · exact Pool_Get_elastic.2.2 ⟨[], 1, 0, false, [], 0⟩ 3

/-- C8: the Redis backend distinguishes not-found from failure, for both
`GetServerBuild` and `GetClientBuild`: a `redis.Nil` reply yields
(zero value, false, nil error); a connection error or a malformed payload
yields a non-nil error; and the (found = false, error = nil) outcome occurs
exactly on the not-found reply. -/
theorem Redis_getBuild_notfound_vs_error :
    ∀ unmarshal : String → Except String BuildResult,
      (RedisCache.GetServerBuild .redisNil unmarshal = (default, false, none) ∧
       RedisCache.GetClientBuild .redisNil unmarshal = (default, false, none)) ∧
      (∀ msg,
        (RedisCache.GetServerBuild (.connError msg) unmarshal).2.2 = some msg ∧
        (RedisCache.GetClientBuild (.connError msg) unmarshal).2.2 = some msg) ∧
      (∀ data e, unmarshal data = .error e →
        (RedisCache.GetServerBuild (.foundData data) unmarshal).2.2 = some e ∧
        (RedisCache.GetClientBuild (.foundData data) unmarshal).2.2 = some e) ∧
      (∀ reply,
        ((RedisCache.GetServerBuild reply unmarshal).2.1 = false ∧
         (RedisCache.GetServerBuild reply unmarshal).2.2 = none) ↔ reply = .redisNil) ∧
      (∀ reply,
        ((RedisCache.GetClientBuild reply unmarshal).2.1 = false ∧
         (RedisCache.GetClientBuild reply unmarshal).2.2 = none) ↔ reply = .redisNil) := by
  intro unmarshal
  refine ⟨⟨rfl, rfl⟩, ?_, ?_, ?_, ?_⟩
  · intro msg
    exact ⟨rfl, rfl⟩
  · intro data e he
    constructor <;> simp [RedisCache.GetServerBuild, RedisCache.GetClientBuild, he]
  · intro reply
    cases reply with
    | redisNil => simp [RedisCache.GetServerBuild]
    | foundData data =>
      rcases hu : unmarshal data with e | r <;>
        simp [RedisCache.GetServerBuild, hu]
    | connError msg => simp [RedisCache.GetServerBuild]
  · intro reply
    cases reply with
    | redisNil => simp [RedisCache.GetClientBuild]
    | foundData data =>
      rcases hu : unmarshal data with e | r <;>
        simp [RedisCache.GetClientBuild, hu]
    | connError msg => simp [RedisCache.GetClientBuild]

/-- Witness for C8 at concrete inputs: an unmarshaller that only accepts
"{}" — a missing key gives (false, nil error), a connection error and a
malformed payload give non-nil errors. -/
theorem Redis_getBuild_notfound_vs_error_witness :
    (RedisCache.GetServerBuild .redisNil
      (fun s => if s = "{}" then .ok default else .error "invalid json") =
      (default, false, none)) ∧
    ((RedisCache.GetServerBuild (.connError "connection refused")
      (fun s => if s = "{}" then .ok default else .error "invalid json")).2.2 =
      some "connection refused") ∧
    ((RedisCache.GetServerBuild (.foundData "oops")
      (fun s => if s = "{}" then .ok default else .error "invalid json")).2.2 =
      some "invalid json") := by
  refine ⟨?_, ?_, ?_⟩
  · exact (Redis_getBuild_notfound_vs_error
      (fun s => if s = "{}" then .ok default else .error "invalid json")).1.1
  · exact ((Redis_getBuild_notfound_vs_error
      (fun s => if s = "{}" then .ok default else .error "invalid json")).2.1
      "connection refused").1
  · exact ((Redis_getBuild_notfound_vs_error
      (fun s => if s = "{}" then .ok default else .error "invalid json")).2.2.1
      "oops" "invalid json" (by simp)).1

/-- C10: a nil `Props` value serializes to the string "null" with no error,
the render proceeds (no error page), and the injected payload statement is
`var props = null; ` prefixed to the compiled code. -/
theorem propsToString_nil_renders_null :
    ∀ (α : Type) (marshal : α → String × Option String) (compiledJS : String),
      propsToString (none : Option α) marshal = ("null", none) ∧
      renderRouteProps (none : Option α) marshal = Except.ok "null" ∧
      injectProps compiledJS "null" = "var props = null; " ++ compiledJS := by
  intro α marshal compiledJS
  refine ⟨rfl, rfl, ?_⟩
  show "var props = " ++ "null" ++ "; " ++ compiledJS = _
  rw [show ("var props = " ++ "null" ++ "; " : String) = "var props = null; " from rfl]

/-- Witness for C3 at concrete inputs: two sequential server renders of the
same route with payloads "1" and "2" produce different injected JS. -/
theorem doRender_cached_artifact_payload_free_witness :
    ("1" : String) ≠ "2" ∧
    (doRenderServerJS NewLocalCache "app.tsx" "1" ⟨"CODE", "", []⟩).1 ≠
      (doRenderServerJS (doRenderServerJS NewLocalCache "app.tsx" "1" ⟨"CODE", "", []⟩).2
        "app.tsx" "2" ⟨"CODE", "", []⟩).1 := by
  refine ⟨by decide, ?_⟩
  obtain ⟨a, -, -, -, -, hne⟩ :=
    (doRender_cached_artifact_payload_free NewLocalCache "app.tsx" "1" "2" ⟨"CODE", "", []⟩).1
  exact hne (by decide)

theorem string_append_left_cancel {a x y : String} (h : a ++ x = a ++ y) : x = y := by
  have hd := congrArg String.data h
  simp only [String.data_append] at hd
  exact String.ext (List.append_cancel_left hd)

/-- Shared-store model of the Redis backend.  `deps` holds the forward
dependency-list keys (`deps:`-namespaced; the JSON payload is modelled in
decoded form, since marshalling a string list cannot fail and unmarshalling
inverts it), `sets` holds the `revdeps:`-namespaced reverse sets, and
`routes` the routes hash. -/
structure RedisStore where
  deps : List (String × List String)
  sets : List (String × List String)
  routes : List (String × String)
deriving Repr

/-- A Redis store with no keys. -/
def emptyRedisStore : RedisStore := { deps := [], sets := [], routes := [] }

/-- Key of the forward dependency list: `rc.prefix + "deps:" + filePath`. -/
def redisDepsKey (pfx filePath : String) : String := pfx ++ "deps:" ++ filePath

/-- Key of one reverse dependency set: `rc.prefix + "revdeps:" + dep`. -/
def redisRevKey (pfx dep : String) : String := pfx ++ "revdeps:" ++ dep

theorem redisDepsKey_inj (pfx : String) {f1 f2 : String}
    (h : redisDepsKey pfx f1 = redisDepsKey pfx f2) : f1 = f2 :=
  string_append_left_cancel h

theorem redisRevKey_inj (pfx : String) {d1 d2 : String}
    (h : redisRevKey pfx d1 = redisRevKey pfx d2) : d1 = d2 :=
  string_append_left_cancel h

/-- Redis `SADD key member` on the modelled set keys. -/
def sAdd (sets : List (String × List String)) (key member : String) :
    List (String × List String) :=
  mapInsert key (setInsert member (revGet sets key)) sets

/-- Redis `SREM key member` (an emptied set has the same membership
semantics as a removed key). -/
def sRem (sets : List (String × List String)) (key member : String) :
    List (String × List String) :=
  mapInsert key (setRemove member (revGet sets key)) sets

/-- Which Redis commands fail with a connection error during one
`RedisCache.SetParentFileDependencies` call: the initial `Get` of the old
forward list, `SRem` per old dependency, the forward `Set`, and `SAdd` per
new dependency. -/
structure RedisWriteFaults where
  getOldDepsFails : Bool
  sremFails : String → Bool
  setFwdFails : Bool
  saddFails : String → Bool

/-- An execution in which every Redis command succeeds. -/
def noWriteFaults : RedisWriteFaults :=
  { getOldDepsFails := false
    sremFails := fun _ => false
    setFwdFails := false
    saddFails := fun _ => false }

/-- The `SAdd` loop of `RedisCache.SetParentFileDependencies`: the first
failing `SAdd` returns its error; `Expire` only sets TTLs and does not
change the membership state. -/
def saddLoop (fl : RedisWriteFaults) (pfx filePath : String) :
    List String → List (String × List String) → List (String × List String) × Option String
  | [], sets => (sets, none)
  | dep :: rest, sets =>
    if fl.saddFails dep then (sets, some "redis: connection error")
    else saddLoop fl pfx filePath rest (sAdd sets (redisRevKey pfx dep) filePath)

/-- `RedisCache.SetParentFileDependencies`: fetch the old forward list —
swallowing a `Get`/`Unmarshal` failure, which leaves `oldDeps` empty — then
`SRem` the old reverse entries ignoring per-command errors, `Set` the new
forward list (its error returned, with the `SRem`s already applied), and
`SAdd` the new reverse entries (first error returned). -/
def RedisCache.SetParentFileDependencies (st : RedisStore) (fl : RedisWriteFaults)
    (pfx filePath : String) (dependencies : List String) : RedisStore × Option String :=
  let oldDeps :=
    if fl.getOldDepsFails then []
    else (mapLookup (redisDepsKey pfx filePath) st.deps).getD []
  let sets1 := oldDeps.foldl
    (fun s dep => if fl.sremFails dep then s else sRem s (redisRevKey pfx dep) filePath)
    st.sets
  if fl.setFwdFails then ({ st with sets := sets1 }, some "redis: connection error")
  else
    let deps2 := mapInsert (redisDepsKey pfx filePath) dependencies st.deps
    let r := saddLoop fl pfx filePath dependencies sets1
    ({ st with deps := deps2, sets := r.1 }, r.2)

/-- The Redis forward index records `dep` as a dependency of `parent`. -/
def redisFwdMem (pfx : String) (st : RedisStore) (parent dep : String) : Prop :=
  dep ∈ (mapLookup (redisDepsKey pfx parent) st.deps).getD []

/-- The Redis reverse index maps `dep` back to `parent`. -/
def redisRevMem (pfx : String) (st : RedisStore) (dep parent : String) : Prop :=
  parent ∈ revGet st.sets (redisRevKey pfx dep)

/-- The Redis reverse index is the exact transpose of the forward index. -/
def redisTransposeOK (pfx : String) (st : RedisStore) : Prop :=
  ∀ dep parent, redisRevMem pfx st dep parent ↔ redisFwdMem pfx st parent dep

instance (pfx : String) (st : RedisStore) (parent dep : String) :
    Decidable (redisFwdMem pfx st parent dep) := by
  unfold redisFwdMem; infer_instance

instance (pfx : String) (st : RedisStore) (dep parent : String) :
    Decidable (redisRevMem pfx st dep parent) := by
  unfold redisRevMem; infer_instance

theorem mem_revGet_sRem (sets : List (String × List String)) (key member k q : String) :
    q ∈ revGet (sRem sets key member) k ↔
      q ∈ revGet sets k ∧ ¬(k = key ∧ q = member) := by
  by_cases h : k = key
  · subst h
    rw [sRem, revGet_mapInsert_self, mem_setRemove]
    constructor
    · rintro ⟨hq, hne⟩
      exact ⟨hq, fun hc => hne hc.2⟩
    · rintro ⟨hq, hne⟩
      exact ⟨hq, fun hc => hne ⟨rfl, hc⟩⟩
  · rw [sRem, revGet_mapInsert_ne h]
    constructor
    · intro hq
      exact ⟨hq, fun hc => h hc.1⟩
    · exact fun hq => hq.1

theorem mem_revGet_sAdd (sets : List (String × List String)) (key member k q : String) :
    q ∈ revGet (sAdd sets key member) k ↔
      q ∈ revGet sets k ∨ (k = key ∧ q = member) := by
  by_cases h : k = key
  · subst h
    rw [sAdd, revGet_mapInsert_self, mem_setInsert]
    constructor
    · rintro (hq | hq)
      · exact Or.inr ⟨rfl, hq⟩
      · exact Or.inl hq
    · rintro (hq | ⟨_, hq⟩)
      · exact Or.inr hq
      · exact Or.inl hq
  · rw [sAdd, revGet_mapInsert_ne h]
    constructor
    · exact fun hq => Or.inl hq
    · rintro (hq | ⟨hc, _⟩)
      · exact hq
      · exact absurd hc h

theorem mem_revGet_foldSRem (pfx member : String) (ds : List String)
    (sets : List (String × List String)) (k q : String) :
    q ∈ revGet (ds.foldl (fun s dep => sRem s (redisRevKey pfx dep) member) sets) k ↔
      q ∈ revGet sets k ∧ ¬((∃ d ∈ ds, k = redisRevKey pfx d) ∧ q = member) := by
  induction ds generalizing sets with
  | nil => simp
  | cons d rest ih =>
    simp only [List.foldl_cons]
    rw [ih, mem_revGet_sRem]
    simp only [List.mem_cons]
    constructor
    · rintro ⟨⟨hq, h1⟩, h2⟩
      refine ⟨hq, ?_⟩
      rintro ⟨⟨d2, hd2, hk⟩, hm⟩
      rcases hd2 with hd2 | hd2
      · subst hd2
        exact h1 ⟨hk, hm⟩
      · exact h2 ⟨⟨d2, hd2, hk⟩, hm⟩
    · rintro ⟨hq, hn⟩
      refine ⟨⟨hq, ?_⟩, ?_⟩
      · rintro ⟨hk, hm⟩
        exact hn ⟨⟨d, Or.inl rfl, hk⟩, hm⟩
      · rintro ⟨⟨d2, hd2, hk⟩, hm⟩
        exact hn ⟨⟨d2, Or.inr hd2, hk⟩, hm⟩

theorem mem_revGet_foldSAdd (pfx member : String) (ds : List String)
    (sets : List (String × List String)) (k q : String) :
    q ∈ revGet (ds.foldl (fun s dep => sAdd s (redisRevKey pfx dep) member) sets) k ↔
      q ∈ revGet sets k ∨ ((∃ d ∈ ds, k = redisRevKey pfx d) ∧ q = member) := by
  induction ds generalizing sets with
  | nil => simp
  | cons d rest ih =>
    simp only [List.foldl_cons]
    rw [ih, mem_revGet_sAdd]
    simp only [List.mem_cons]
    constructor
    · rintro ((hq | ⟨hk, hm⟩) | ⟨⟨d2, hd2, hk⟩, hm⟩)
      · exact Or.inl hq
      · exact Or.inr ⟨⟨d, Or.inl rfl, hk⟩, hm⟩
      · exact Or.inr ⟨⟨d2, Or.inr hd2, hk⟩, hm⟩
    · rintro (hq | ⟨⟨d2, hd2, hk⟩, hm⟩)
      · exact Or.inl (Or.inl hq)
      · rcases hd2 with hd2 | hd2
        · subst hd2
          exact Or.inl (Or.inr ⟨hk, hm⟩)
        · exact Or.inr ⟨⟨d2, hd2, hk⟩, hm⟩

theorem exists_revKey_eq (pfx dep : String) (ds : List String) :
    (∃ d ∈ ds, redisRevKey pfx dep = redisRevKey pfx d) ↔ dep ∈ ds := by
  constructor
  · rintro ⟨d, hd, hk⟩
    rw [redisRevKey_inj pfx hk]
    exact hd
  · intro h
    exact ⟨dep, h, rfl⟩

theorem saddLoop_ok (fl : RedisWriteFaults) (hfl : ∀ d, fl.saddFails d = false)
    (pfx filePath : String) (ds : List String) (sets : List (String × List String)) :
    saddLoop fl pfx filePath ds sets =
      (ds.foldl (fun s dep => sAdd s (redisRevKey pfx dep) filePath) sets, none) := by
  induction ds generalizing sets with
  | nil => rfl
  | cons d rest ih =>
    simp only [saddLoop, hfl d, Bool.false_eq_true, if_neg, List.foldl_cons]
    exact ih _

theorem redisSet_noFaults (st : RedisStore) (pfx filePath : String) (D : List String) :
    RedisCache.SetParentFileDependencies st noWriteFaults pfx filePath D =
      ({ st with
          deps := mapInsert (redisDepsKey pfx filePath) D st.deps
          sets := D.foldl (fun s dep => sAdd s (redisRevKey pfx dep) filePath)
            (((mapLookup (redisDepsKey pfx filePath) st.deps).getD []).foldl
              (fun s dep => sRem s (redisRevKey pfx dep) filePath) st.sets) },
        none) := by
  simp only [RedisCache.SetParentFileDependencies, noWriteFaults, Bool.false_eq_true,
    if_neg, if_false]
  rw [saddLoop_ok _ (fun d => rfl)]

theorem redisRevMem_set_noFaults (st : RedisStore) (pfx f : String) (D : List String)
    (dep q : String) :
    redisRevMem pfx (RedisCache.SetParentFileDependencies st noWriteFaults pfx f D).1 dep q ↔
      (redisRevMem pfx st dep q ∧
        ¬(dep ∈ (mapLookup (redisDepsKey pfx f) st.deps).getD [] ∧ q = f)) ∨
      (dep ∈ D ∧ q = f) := by
  rw [redisSet_noFaults]
  show q ∈ revGet _ (redisRevKey pfx dep) ↔ _
  rw [mem_revGet_foldSAdd, mem_revGet_foldSRem, exists_revKey_eq, exists_revKey_eq]
  rfl

theorem redisFwdMem_set_noFaults (st : RedisStore) (pfx f : String) (D : List String)
    (p dep : String) :
    redisFwdMem pfx (RedisCache.SetParentFileDependencies st noWriteFaults pfx f D).1 p dep ↔
      (if p = f then dep ∈ D else redisFwdMem pfx st p dep) := by
  rw [redisSet_noFaults]
  by_cases h : p = f
  · subst h
    rw [if_pos rfl]
    show dep ∈ (mapLookup (redisDepsKey pfx p)
      (mapInsert (redisDepsKey pfx p) D st.deps)).getD [] ↔ _
    rw [mapLookup_mapInsert_self]
    rfl
  · rw [if_neg h]
    have hk : redisDepsKey pfx p ≠ redisDepsKey pfx f := fun hc => h (redisDepsKey_inj pfx hc)
    show dep ∈ (mapLookup (redisDepsKey pfx p)
      (mapInsert (redisDepsKey pfx f) D st.deps)).getD [] ↔ _
    rw [mapLookup_mapInsert_ne hk]
    rfl

theorem redisTransposeOK_step (pfx : String) (st : RedisStore)
    (h : redisTransposeOK pfx st) (f : String) (D : List String) :
    redisTransposeOK pfx (RedisCache.SetParentFileDependencies st noWriteFaults pfx f D).1 := by
  intro dep q
  rw [redisRevMem_set_noFaults, redisFwdMem_set_noFaults]
  by_cases hq : q = f
  · subst hq
    rw [if_pos rfl]
    have hold : redisRevMem pfx st dep q ↔
        dep ∈ (mapLookup (redisDepsKey pfx q) st.deps).getD [] := h dep q
    constructor
    · rintro (⟨hr, hn⟩ | ⟨hd, _⟩)
      · exact absurd ⟨hold.1 hr, by trivial⟩ hn
      · exact hd
    · intro hd
      exact Or.inr ⟨hd, rfl⟩
  · rw [if_neg hq]
    constructor
    · rintro (⟨hr, _⟩ | ⟨_, hc⟩)
      · exact (h dep q).1 hr
      · exact absurd hc hq
    · intro hf
      exact Or.inl ⟨(h dep q).2 hf, fun hc => hq hc.2⟩

theorem redisTransposeOK_empty (pfx : String) : redisTransposeOK pfx emptyRedisStore := by
  intro dep parent
  simp [redisRevMem, redisFwdMem, emptyRedisStore, revGet, mapLookup]

theorem redisTransposeOK_foldl (pfx : String) (calls : List (String × List String))
    (st : RedisStore) (h : redisTransposeOK pfx st) :
    redisTransposeOK pfx (calls.foldl
      (fun s call => (RedisCache.SetParentFileDependencies s noWriteFaults pfx
        call.1 call.2).1) st) := by
  induction calls generalizing st with
  | nil => exact h
  | cons call rest ih =>
    exact ih _ (redisTransposeOK_step pfx st h call.1 call.2)

/-- Which Redis commands fail with a connection error during one
`RedisCache.GetRouteIDSWithFile` call: `SMembers` on the reverse set and
`HGetAll` on the routes hash. -/
structure RedisReadFaults where
  smembersFails : Bool
  hgetallFails : Bool
deriving DecidableEq, Repr

/-- A read execution in which every Redis command succeeds. -/
def noReadFaults : RedisReadFaults := { smembersFails := false, hgetallFails := false }

/-- `RedisCache.GetParentFilesFromDependency`: `SMembers` of the reverse
set; an absent key is an empty set (not an error), a connection failure is
an error. -/
def RedisCache.GetParentFilesFromDependency (st : RedisStore) (fl : RedisReadFaults)
    (pfx dependencyPath : String) : List String × Option String :=
  if fl.smembersFails then ([], some "redis: connection error")
  else (revGet st.sets (redisRevKey pfx dependencyPath), none)

/-- `RedisCache.GetRouteIDSForParentFile`: `HGetAll` of the routes hash,
then collect the routeIDs mapped to `filePath`. -/
def RedisCache.GetRouteIDSForParentFile (st : RedisStore) (fl : RedisReadFaults)
    (_pfx filePath : String) : List String × Option String :=
  if fl.hgetallFails then ([], some "redis: connection error")
  else ((st.routes.filter (fun p => p.2 = filePath)).map (fun p => p.1), none)

/-- The per-parent lookup loop of `RedisCache.GetRouteIDSWithFile`: the
first failing `GetRouteIDSForParentFile` aborts with its error, otherwise
the route IDs are concatenated. -/
def routeIDSLoop (st : RedisStore) (fl : RedisReadFaults) (pfx : String) :
    List String → List String × Option String
  | [] => ([], none)
  | f :: rest =>
    let r := RedisCache.GetRouteIDSForParentFile st fl pfx f
    match r.2 with
    | some e => ([], some e)
    | none =>
      let r2 := routeIDSLoop st fl pfx rest
      match r2.2 with
      | some e => ([], some e)
      | none => (r.1 ++ r2.1, none)

/-- `RedisCache.GetRouteIDSWithFile`: parents from `SMembers` on the
reverse set (error propagated), fallback to the path itself when there are
none, then one routes-hash lookup per parent (errors propagated). -/
def RedisCache.GetRouteIDSWithFile (st : RedisStore) (fl : RedisReadFaults)
    (pfx filePath : String) : List String × Option String :=
  let pf := RedisCache.GetParentFilesFromDependency st fl pfx filePath
  match pf.2 with
  | some e => ([], some e)
  | none =>
    let reactFiles := if pf.1 = [] then [filePath] else pf.1
    routeIDSLoop st fl pfx reactFiles

/-- The parent-file list `RedisCache.GetRouteIDSWithFile` iterates over on
a fault-free execution: the reverse-set members, or the file itself when
that set is empty. -/
def redisParentFilesOrSelf (st : RedisStore) (pfx filePath : String) : List String :=
  let parents := revGet st.sets (redisRevKey pfx filePath)
  if parents = [] then [filePath] else parents

theorem mem_RedisGetRouteIDSForParentFile (st : RedisStore) (pfx f r : String) :
    r ∈ (RedisCache.GetRouteIDSForParentFile st noReadFaults pfx f).1 ↔
      (r, f) ∈ st.routes := by
  simp only [RedisCache.GetRouteIDSForParentFile, noReadFaults, Bool.false_eq_true, if_neg,
    if_false, List.mem_map, List.mem_filter]
  constructor
  · rintro ⟨⟨a, b⟩, ⟨hm, hb⟩, ha⟩
    simp only at hb ha
    have hb2 : b = f := of_decide_eq_true hb
    subst ha
    subst hb2
    exact hm
  · intro h
    exact ⟨(r, f), ⟨h, by simp⟩, rfl⟩

theorem routeIDSLoop_noFaults (st : RedisStore) (pfx : String) (files : List String) :
    routeIDSLoop st noReadFaults pfx files =
      (files.flatMap
        (fun f => (RedisCache.GetRouteIDSForParentFile st noReadFaults pfx f).1), none) := by
  induction files with
  | nil => rfl
  | cons f rest ih =>
    simp only [routeIDSLoop, ih]
    simp only [RedisCache.GetRouteIDSForParentFile, noReadFaults, Bool.false_eq_true, if_neg,
      if_false, List.flatMap_cons]

theorem noReadFaults_smembers : noReadFaults.smembersFails = false := rfl

theorem redisGetRouteIDSWithFile_noFaults (st : RedisStore) (pfx filePath : String) :
    RedisCache.GetRouteIDSWithFile st noReadFaults pfx filePath =
      ((redisParentFilesOrSelf st pfx filePath).flatMap
        (fun f => (RedisCache.GetRouteIDSForParentFile st noReadFaults pfx f).1), none) := by
  simp only [RedisCache.GetRouteIDSWithFile, RedisCache.GetParentFilesFromDependency,
    noReadFaults_smembers, Bool.false_eq_true, if_neg, if_false, redisParentFilesOrSelf]
  rw [routeIDSLoop_noFaults]

/-- The faults of the C2 counterexample execution: only the initial `Get`
of the old forward list fails (a transient connection error). -/
def redisFaultyGetFaults : RedisWriteFaults :=
  { getOldDepsFails := true
    sremFails := fun _ => false
    setFwdFails := false
    saddFails := fun _ => false }

/-- The store after registering D1 = ["a.ts", "b.ts"] for "root.tsx"
fault-free and then D2 = ["b.ts", "c.ts"] in an execution whose old-deps
`Get` fails (the backend swallows that error). -/
def redisStaleStore : RedisStore :=
  (RedisCache.SetParentFileDependencies
    (RedisCache.SetParentFileDependencies emptyRedisStore noWriteFaults
      "gossr:" "root.tsx" ["a.ts", "b.ts"]).1
    redisFaultyGetFaults "gossr:" "root.tsx" ["b.ts", "c.ts"]).1

/-- C2, counterexample: on the Redis backend the claim fails as stated.
Register D1 = ["a.ts", "b.ts"] then D2 = ["b.ts", "c.ts"] for "root.tsx";
in the second call the old-deps `Get` hits a connection error, which
`RedisCache.SetParentFileDependencies` swallows (`oldDeps` stays empty, no
`SRem` runs) — the call still returns a nil error, the forward index is
already D2, yet "a.ts" ∈ D1\D2 still maps back to "root.tsx" in the
reverse index, so the reverse index is not the transpose of the forward
index after the second call. -/
theorem SetParentFileDependencies_redis_stale_reverse_counterexample :
    (RedisCache.SetParentFileDependencies
      (RedisCache.SetParentFileDependencies emptyRedisStore noWriteFaults
        "gossr:" "root.tsx" ["a.ts", "b.ts"]).1
      redisFaultyGetFaults "gossr:" "root.tsx" ["b.ts", "c.ts"]).2 = none ∧
    redisRevMem "gossr:" redisStaleStore "a.ts" "root.tsx" ∧
    (mapLookup (redisDepsKey "gossr:" "root.tsx") redisStaleStore.deps).getD [] =
      ["b.ts", "c.ts"] ∧
    ¬ redisFwdMem "gossr:" redisStaleStore "root.tsx" "a.ts" ∧
    ¬ redisTransposeOK "gossr:" redisStaleStore := by
  refine ⟨by decide, by decide, by decide, by decide, ?_⟩
  intro h
  exact absurd ((h "a.ts" "root.tsx").1 (by decide)) (by decide)

/-- C2 (amended): for the in-memory backend the claim holds as stated, and
for the Redis backend it holds on executions in which the Redis commands of
both calls succeed: after registering D1 then D2 for the same root file the
reverse index maps no member of D1\D2 back to that root and maps every
member of D2 to it, and after any sequence of fault-free calls from an
empty store the reverse index is the exact transpose of the forward
index.  (When a command fails the Redis backend swallows the error and
stale reverse entries can survive, per the counterexample.) -/
theorem SetParentFileDependencies_reverse_index_amended :
    (∀ calls : List (String × List String),
        transposeOK (calls.foldl
          (fun c call => (c.SetParentFileDependencies call.1 call.2).1) NewLocalCache)) ∧
    (∀ cm : LocalCache, transposeOK cm → ∀ filePath D1 D2,
        (∀ d, d ∈ D1 → d ∉ D2 →
          ¬ revMem (((cm.SetParentFileDependencies filePath D1).1.SetParentFileDependencies
              filePath D2).1) d filePath) ∧
        (∀ d, d ∈ D2 →
          revMem (((cm.SetParentFileDependencies filePath D1).1.SetParentFileDependencies
              filePath D2).1) d filePath) ∧
        transposeOK (((cm.SetParentFileDependencies filePath D1).1.SetParentFileDependencies
            filePath D2).1)) ∧
    (∀ (pfx : String) (calls : List (String × List String)),
        redisTransposeOK pfx (calls.foldl
          (fun st call => (RedisCache.SetParentFileDependencies st noWriteFaults pfx
            call.1 call.2).1) emptyRedisStore)) ∧
    (∀ (pfx : String) (st : RedisStore), redisTransposeOK pfx st → ∀ filePath D1 D2,
        (∀ d, d ∈ D1 → d ∉ D2 →
          ¬ redisRevMem pfx ((RedisCache.SetParentFileDependencies
              (RedisCache.SetParentFileDependencies st noWriteFaults pfx filePath D1).1
              noWriteFaults pfx filePath D2).1) d filePath) ∧
        (∀ d, d ∈ D2 →
          redisRevMem pfx ((RedisCache.SetParentFileDependencies
              (RedisCache.SetParentFileDependencies st noWriteFaults pfx filePath D1).1
              noWriteFaults pfx filePath D2).1) d filePath) ∧
        redisTransposeOK pfx ((RedisCache.SetParentFileDependencies
            (RedisCache.SetParentFileDependencies st noWriteFaults pfx filePath D1).1
            noWriteFaults pfx filePath D2).1)) := by
  refine ⟨?_, ?_, ?_, ?_⟩
  · intro calls
    exact transposeOK_foldl calls NewLocalCache transposeOK_NewLocalCache
  · intro cm h filePath D1 D2
    have h2 : transposeOK ((cm.SetParentFileDependencies filePath D1).1.SetParentFileDependencies
        filePath D2).1 :=
      transposeOK_step _ (transposeOK_step cm h filePath D1) filePath D2
    have hiff : ∀ d, revMem ((cm.SetParentFileDependencies filePath D1).1.SetParentFileDependencies
        filePath D2).1 d filePath ↔ d ∈ D2 := by
      intro d
      rw [h2 d filePath, fwdMem_SetParentFileDependencies]
      rw [if_pos rfl]
    refine ⟨?_, ?_, h2⟩
    · intro d _ hd2 hrev
      exact hd2 ((hiff d).1 hrev)
    · intro d hd2
      exact (hiff d).2 hd2
  · intro pfx calls
    exact redisTransposeOK_foldl pfx calls emptyRedisStore (redisTransposeOK_empty pfx)
  · intro pfx st h filePath D1 D2
    have h2 : redisTransposeOK pfx ((RedisCache.SetParentFileDependencies
        (RedisCache.SetParentFileDependencies st noWriteFaults pfx filePath D1).1
        noWriteFaults pfx filePath D2).1) :=
      redisTransposeOK_step pfx _ (redisTransposeOK_step pfx st h filePath D1) filePath D2
    have hiff : ∀ d, redisRevMem pfx ((RedisCache.SetParentFileDependencies
        (RedisCache.SetParentFileDependencies st noWriteFaults pfx filePath D1).1
        noWriteFaults pfx filePath D2).1) d filePath ↔ d ∈ D2 := by
      intro d
      rw [h2 d filePath, redisFwdMem_set_noFaults]
      rw [if_pos rfl]
    refine ⟨?_, ?_, h2⟩
    · intro d _ hd2 hrev
      exact hd2 ((hiff d).1 hrev)
    · intro d hd2
      exact (hiff d).2 hd2

/-- Witness for C2 (amended) at concrete inputs: registering
["a.ts", "b.ts"] then ["b.ts", "c.ts"] for "root.tsx" on a fresh store —
on either backend, fault-free for Redis — leaves no reverse entry from
"a.ts" and a reverse entry from "c.ts". -/
theorem SetParentFileDependencies_reverse_index_amended_witness :
    (¬ revMem ((NewLocalCache.SetParentFileDependencies "root.tsx"
        ["a.ts", "b.ts"]).1.SetParentFileDependencies "root.tsx" ["b.ts", "c.ts"]).1
      "a.ts" "root.tsx" ∧
     revMem ((NewLocalCache.SetParentFileDependencies "root.tsx"
        ["a.ts", "b.ts"]).1.SetParentFileDependencies "root.tsx" ["b.ts", "c.ts"]).1
      "c.ts" "root.tsx") ∧
    (¬ redisRevMem "gossr:" ((RedisCache.SetParentFileDependencies
        (RedisCache.SetParentFileDependencies emptyRedisStore noWriteFaults
          "gossr:" "root.tsx" ["a.ts", "b.ts"]).1
        noWriteFaults "gossr:" "root.tsx" ["b.ts", "c.ts"]).1) "a.ts" "root.tsx" ∧
     redisRevMem "gossr:" ((RedisCache.SetParentFileDependencies
        (RedisCache.SetParentFileDependencies emptyRedisStore noWriteFaults
          "gossr:" "root.tsx" ["a.ts", "b.ts"]).1
        noWriteFaults "gossr:" "root.tsx" ["b.ts", "c.ts"]).1) "c.ts" "root.tsx") := by
  have hl := SetParentFileDependencies_reverse_index_amended.2.1 NewLocalCache
    transposeOK_NewLocalCache "root.tsx" ["a.ts", "b.ts"] ["b.ts", "c.ts"]
  have hr := SetParentFileDependencies_reverse_index_amended.2.2.2 "gossr:" emptyRedisStore
    (redisTransposeOK_empty "gossr:") "root.tsx" ["a.ts", "b.ts"] ["b.ts", "c.ts"]
  exact ⟨⟨hl.1 "a.ts" (by decide) (by decide), hl.2.1 "c.ts" (by decide)⟩,
    ⟨hr.1 "a.ts" (by decide) (by decide), hr.2.1 "c.ts" (by decide)⟩⟩

/-- C9: on both backends, `GetRouteIDSWithFile` returns the union of the
route IDs registered for each parent file in the reverse-dependency index,
falling back to the path itself when the reverse lookup yields no parents:
a route ID is in the result iff it is registered to some file of
`parentFilesOrSelf` (resp. `redisParentFilesOrSelf`, on a fault-free
execution).  On the Redis backend a failing `SMembers` or `HGetAll`
propagates its error instead of returning a union. -/
theorem GetRouteIDSWithFile_union_fallback_both_backends :
    (∀ (cm : LocalCache) (filePath r : String),
      (r ∈ (cm.GetRouteIDSWithFile filePath).1 ↔
        ∃ f ∈ parentFilesOrSelf cm filePath, (r, f) ∈ cm.routeIDToParentFile) ∧
      ((cm.GetParentFilesFromDependency filePath).1 = [] →
        parentFilesOrSelf cm filePath = [filePath])) ∧
    (∀ (st : RedisStore) (pfx filePath r : String),
      (r ∈ (RedisCache.GetRouteIDSWithFile st noReadFaults pfx filePath).1 ↔
        ∃ f ∈ redisParentFilesOrSelf st pfx filePath, (r, f) ∈ st.routes) ∧
      (revGet st.sets (redisRevKey pfx filePath) = [] →
        redisParentFilesOrSelf st pfx filePath = [filePath])) ∧
    (∀ (st : RedisStore) (fl : RedisReadFaults) (pfx filePath : String),
      fl.smembersFails = true →
        RedisCache.GetRouteIDSWithFile st fl pfx filePath =
          ([], some "redis: connection error")) ∧
    (∀ (st : RedisStore) (pfx filePath : String),
      RedisCache.GetRouteIDSWithFile st
          { smembersFails := false, hgetallFails := true } pfx filePath =
        ([], some "redis: connection error")) := by
  refine ⟨?_, ?_, ?_, ?_⟩
  · intro cm filePath r
    constructor
    · rw [GetRouteIDSWithFile_eq]
      simp only [List.mem_flatMap, mem_GetRouteIDSForParentFile]
    · intro h
      simp [parentFilesOrSelf, h]
  · intro st pfx filePath r
    constructor
    · rw [show (RedisCache.GetRouteIDSWithFile st noReadFaults pfx filePath).1 =
          (redisParentFilesOrSelf st pfx filePath).flatMap
            (fun f => (RedisCache.GetRouteIDSForParentFile st noReadFaults pfx f).1) from
          congrArg Prod.fst (redisGetRouteIDSWithFile_noFaults st pfx filePath)]
      simp only [List.mem_flatMap, mem_RedisGetRouteIDSForParentFile]
    · intro h
      simp [redisParentFilesOrSelf, h]
  · intro st fl pfx filePath h
    simp [RedisCache.GetRouteIDSWithFile, RedisCache.GetParentFilesFromDependency, h]
  · intro st pfx filePath
    rcases he : revGet st.sets (redisRevKey pfx filePath) with _ | ⟨p, rest⟩ <;>
      simp [RedisCache.GetRouteIDSWithFile, RedisCache.GetParentFilesFromDependency, he,
        routeIDSLoop, RedisCache.GetRouteIDSForParentFile]

/-- Witness for C9 at concrete inputs: on both backends, a store holding
only the route registration "route1" → "root.tsx" and an empty reverse
index falls back to the file itself and finds "route1"; a failing
`SMembers` on the Redis backend yields an error, not a union. -/
theorem GetRouteIDSWithFile_union_fallback_both_backends_witness :
    (("route1" ∈ ((LocalCache.GetRouteIDSWithFile
        ⟨[], [], [("route1", "root.tsx")], [], []⟩ "root.tsx").1) ↔
      ∃ f ∈ parentFilesOrSelf ⟨[], [], [("route1", "root.tsx")], [], []⟩ "root.tsx",
        ("route1", f) ∈ [(("route1" : String), ("root.tsx" : String))]) ∧
     parentFilesOrSelf ⟨[], [], [("route1", "root.tsx")], [], []⟩ "root.tsx" =
       ["root.tsx"]) ∧
    (("route1" ∈ ((RedisCache.GetRouteIDSWithFile
        ⟨[], [], [("route1", "root.tsx")]⟩ noReadFaults "gossr:" "root.tsx").1) ↔
      ∃ f ∈ redisParentFilesOrSelf ⟨[], [], [("route1", "root.tsx")]⟩ "gossr:" "root.tsx",
        ("route1", f) ∈ [(("route1" : String), ("root.tsx" : String))]) ∧
     redisParentFilesOrSelf ⟨[], [], [("route1", "root.tsx")]⟩ "gossr:" "root.tsx" =
       ["root.tsx"]) ∧
    RedisCache.GetRouteIDSWithFile ⟨[], [], [("route1", "root.tsx")]⟩
        { smembersFails := true, hgetallFails := false } "gossr:" "root.tsx" =
      ([], some "redis: connection error") := by
  have hl := GetRouteIDSWithFile_union_fallback_both_backends.1
    ⟨[], [], [("route1", "root.tsx")], [], []⟩ "root.tsx" "route1"
  have hr := GetRouteIDSWithFile_union_fallback_both_backends.2.1
    ⟨[], [], [("route1", "root.tsx")]⟩ "gossr:" "root.tsx" "route1"
  have he := GetRouteIDSWithFile_union_fallback_both_backends.2.2.1
    ⟨[], [], [("route1", "root.tsx")]⟩ { smembersFails := true, hgetallFails := false }
    "gossr:" "root.tsx" rfl
  exact ⟨⟨hl.1, hl.2 rfl⟩, ⟨hr.1, hr.2 rfl⟩, he⟩
